import Mathlib

/-!
# Verification of the contact solver (`src/src/engine/ContactSolver.cpp`)

A shallow embedding of the live code paths of `ContactSolver.cpp` (the
sequential-impulse contact solver of the reactphysics3d fork).  Scalars
(`decimal`) are modelled by `ℚ`; 3-vectors and 3x3 matrices are modelled
componentwise.  Velocity buffers are modelled as functions `ℕ → Vector3`
(index = constrained-velocity index of a body), and the in-place
`buffer[i] += dv` updates of the C++ are modelled by the `updV` helper.

Each definition carries a comment naming the source lines it translates.
-/

namespace ContactSolver

/-- 3-component vector over the scalar type (`Vector3` in the source). -/
structure Vector3 where
  x : ℚ
  y : ℚ
  z : ℚ
deriving DecidableEq, Repr

namespace Vector3

instance : Zero Vector3 := ⟨⟨0, 0, 0⟩⟩
instance : Add Vector3 := ⟨fun a b => ⟨a.x + b.x, a.y + b.y, a.z + b.z⟩⟩
instance : Neg Vector3 := ⟨fun a => ⟨-a.x, -a.y, -a.z⟩⟩
instance : Sub Vector3 := ⟨fun a b => ⟨a.x - b.x, a.y - b.y, a.z - b.z⟩⟩
instance : SMul ℚ Vector3 := ⟨fun r a => ⟨r * a.x, r * a.y, r * a.z⟩⟩

@[simp] theorem zero_x : (0 : Vector3).x = 0 := rfl
@[simp] theorem zero_y : (0 : Vector3).y = 0 := rfl
@[simp] theorem zero_z : (0 : Vector3).z = 0 := rfl
@[simp] theorem add_x (a b : Vector3) : (a + b).x = a.x + b.x := rfl
@[simp] theorem add_y (a b : Vector3) : (a + b).y = a.y + b.y := rfl
@[simp] theorem add_z (a b : Vector3) : (a + b).z = a.z + b.z := rfl
@[simp] theorem neg_x (a : Vector3) : (-a).x = -a.x := rfl
@[simp] theorem neg_y (a : Vector3) : (-a).y = -a.y := rfl
@[simp] theorem neg_z (a : Vector3) : (-a).z = -a.z := rfl
@[simp] theorem sub_x (a b : Vector3) : (a - b).x = a.x - b.x := rfl
@[simp] theorem sub_y (a b : Vector3) : (a - b).y = a.y - b.y := rfl
@[simp] theorem sub_z (a b : Vector3) : (a - b).z = a.z - b.z := rfl
@[simp] theorem smul_x (r : ℚ) (a : Vector3) : (r • a).x = r * a.x := rfl
@[simp] theorem smul_y (r : ℚ) (a : Vector3) : (r • a).y = r * a.y := rfl
@[simp] theorem smul_z (r : ℚ) (a : Vector3) : (r • a).z = r * a.z := rfl

@[ext] theorem ext' {a b : Vector3} (hx : a.x = b.x) (hy : a.y = b.y)
    (hz : a.z = b.z) : a = b := by
  cases a; cases b; simp_all

/-- Dot product (`Vector3::dot`). -/
def dot (a b : Vector3) : ℚ := a.x * b.x + a.y * b.y + a.z * b.z

/-- Cross product (`Vector3::cross`). -/
def cross (a b : Vector3) : Vector3 :=
  ⟨a.y * b.z - a.z * b.y, a.z * b.x - a.x * b.z, a.x * b.y - a.y * b.x⟩

theorem dot_comm (a b : Vector3) : a.dot b = b.dot a := by
  simp only [dot]; ring

theorem add_dot (a b c : Vector3) : (a + b).dot c = a.dot c + b.dot c := by
  simp only [dot, add_x, add_y, add_z]; ring

theorem smul_dot (r : ℚ) (a b : Vector3) : (r • a).dot b = r * a.dot b := by
  simp only [dot, smul_x, smul_y, smul_z]; ring

theorem smul_smul' (r s : ℚ) (a : Vector3) : r • (s • a) = (r * s) • a := by
  ext <;> simp <;> ring

theorem one_smul' (a : Vector3) : (1 : ℚ) • a = a := by
  ext <;> simp

theorem smul_add' (r : ℚ) (a b : Vector3) : r • (a + b) = r • a + r • b := by
  ext <;> simp <;> ring

theorem smul_neg' (r : ℚ) (a : Vector3) : r • (-a) = -(r • a) := by
  ext <;> simp

theorem add_neg_cancel' (a : Vector3) : a + -a = 0 := by
  ext <;> simp

theorem add_comm' (a b : Vector3) : a + b = b + a := by
  ext <;> simp <;> ring

theorem add_assoc' (a b c : Vector3) : a + b + c = a + (b + c) := by
  ext <;> simp <;> ring

theorem add_zero' (a : Vector3) : a + 0 = a := by
  ext <;> simp

@[simp] theorem zero_add' (a : Vector3) : 0 + a = a := by
  ext <;> simp

theorem zero_def : (0 : Vector3) = ⟨0, 0, 0⟩ := rfl

@[simp] theorem mk_add_mk (a b c d e f : ℚ) :
    (Vector3.mk a b c) + (Vector3.mk d e f) = ⟨a + d, b + e, c + f⟩ := rfl

theorem mk_eq_zero_iff (a b c : ℚ) :
    Vector3.mk a b c = 0 ↔ a = 0 ∧ b = 0 ∧ c = 0 := by
  rw [zero_def, mk.injEq]

theorem add_sub_cancel_left' (a b : Vector3) : a + b - a = b := by
  ext <;> simp

end Vector3

/-- 3x3 matrix, stored as three rows (`Matrix3x3` in the source). -/
structure Matrix3x3 where
  row0 : Vector3
  row1 : Vector3
  row2 : Vector3
deriving DecidableEq, Repr

namespace Matrix3x3

instance : Zero Matrix3x3 := ⟨⟨0, 0, 0⟩⟩
instance : Add Matrix3x3 :=
  ⟨fun a b => ⟨a.row0 + b.row0, a.row1 + b.row1, a.row2 + b.row2⟩⟩

/-- Matrix-vector product (`Matrix3x3::operator*(Vector3)`). -/
def mulVec (m : Matrix3x3) (v : Vector3) : Vector3 :=
  ⟨m.row0.dot v, m.row1.dot v, m.row2.dot v⟩

/-- The identity matrix. -/
def identity : Matrix3x3 := ⟨⟨1, 0, 0⟩, ⟨0, 1, 0⟩, ⟨0, 0, 1⟩⟩

theorem mulVec_zero (m : Matrix3x3) : m.mulVec 0 = 0 := by
  ext <;> simp [mulVec, Vector3.dot]

end Matrix3x3

/-! ## Solver constants (ContactSolver.cpp lines 37-39) -/

/-- Constant `BETA = decimal(0.2)` (line 37). -/
def BETA : ℚ := 2/10

/-- Constant `BETA_SPLIT_IMPULSE = decimal(0.2)` (line 38). -/
def BETA_SPLIT_IMPULSE : ℚ := 2/10

/-- Constant `SLOP = decimal(0.01)` (line 39). -/
def SLOP : ℚ := 1/100

/-- Threshold `RESTITUTION_VELOCITY_THRESHOLD` comes from the engine's configuration
header, which is not part of the solver source; the spec (section 6) only says
it is "provided by the engine".  Its concrete value is immaterial to every
claim below; we use the engine's documented default of 1. -/
def RESTITUTION_VELOCITY_THRESHOLD : ℚ := 1

/-! ## Internal constraint records

Fields mirror the `PenetrationConstraint` / `FrictionConstraint` structs as
used by the live code of `ContactSolver.cpp` (declared in the solver header,
used at lines 162-303, 477-577, 773-846, 857-978, 1259-1274). -/

/-- One penetration constraint per contact point. -/
structure PenetrationConstraint where
  indexBody1 : ℕ
  indexBody2 : ℕ
  inverseInertiaTensorBody1 : Matrix3x3
  inverseInertiaTensorBody2 : Matrix3x3
  massInverseBody1 : ℚ
  massInverseBody2 : ℚ
  restitutionFactor : ℚ
  indexFrictionConstraint : ℕ
  r1 : Vector3
  r2 : Vector3
  normal : Vector3
  penetrationDepth : ℚ
  isRestingContact : Bool
  r1CrossN : Vector3
  r2CrossN : Vector3
  inversePenetrationMass : ℚ
  restitutionBias : ℚ
  penetrationImpulse : ℚ
  penetrationSplitImpulse : ℚ
deriving DecidableEq, Repr

/-- One friction constraint per contact manifold (friction solved at the
manifold center; the per-contact-point friction path is dead code). -/
structure FrictionConstraint where
  indexBody1 : ℕ
  indexBody2 : ℕ
  inverseInertiaTensorBody1 : Matrix3x3
  inverseInertiaTensorBody2 : Matrix3x3
  massInverseBody1 : ℚ
  massInverseBody2 : ℚ
  frictionCoefficient : ℚ
  rollingResistanceFactor : ℚ
  normal : Vector3
  frictionPointBody1 : Vector3
  frictionPointBody2 : Vector3
  r1Friction : Vector3
  r2Friction : Vector3
  frictionVector1 : Vector3
  frictionVector2 : Vector3
  oldFrictionVector1 : Vector3
  oldFrictionVector2 : Vector3
  r1CrossT1 : Vector3
  r1CrossT2 : Vector3
  r2CrossT1 : Vector3
  r2CrossT2 : Vector3
  inverseFriction1Mass : ℚ
  inverseFriction2Mass : ℚ
  inverseTwistFrictionMass : ℚ
  inverseRollingResistance : Matrix3x3
  friction1Impulse : ℚ
  friction2Impulse : ℚ
  frictionTwistImpulse : ℚ
  rollingResistanceImpulse : Vector3
  totalPenetrationImpulse : ℚ
  hasAtLeastOneRestingContactPoint : Bool
deriving DecidableEq, Repr

/-! ## Velocity buffers -/

/-- The four externally owned velocity buffers, indexed by a body's
constrained-velocity index: `mLinearVelocities`, `mAngularVelocities`,
`mSplitLinearVelocities`, `mSplitAngularVelocities`. -/
structure SolverState where
  linV : ℕ → Vector3
  angV : ℕ → Vector3
  splitLinV : ℕ → Vector3
  splitAngV : ℕ → Vector3

/-- In-place accumulation `buffer[i] += dv` on a velocity buffer. -/
def updV (f : ℕ → Vector3) (i : ℕ) (dv : Vector3) : ℕ → Vector3 :=
  fun j => if j = i then f i + dv else f j

@[simp] theorem updV_same (f : ℕ → Vector3) (i : ℕ) (dv : Vector3) :
    updV f i dv i = f i + dv := by
  simp [updV]

theorem updV_other (f : ℕ → Vector3) (i : ℕ) (dv : Vector3) {j : ℕ}
    (h : j ≠ i) : updV f i dv j = f j := by
  simp [updV, h]

/-! ## Initialization (`initializeForIsland`, lines 53-311)

The per-contact-point body of the manifold loop (lines 157-240) is embedded
as `initPenetrationConstraint`.  The friction-constraint statements the
claims are about are embedded statement by statement: the accumulated-impulse
seeding (lines 253-268) as `initFrictionImpulses` and the effective-mass
ternaries (lines 279-303) as `setFrictionMasses`; the remaining friction
initialization (averaged normal normalization and `computeFrictionVectors`,
lines 270-276) involves a square root and is not needed by any claim. -/

/-- The denominator `massPenetration` of the normal effective mass
(lines 205-208):
`Minv1 + Minv2 + ((I1*(r1 x n)) x r1).n + ((I2*(r2 x n)) x r2).n`. -/
def massPenetration (minv1 minv2 : ℚ) (i1 i2 : Matrix3x3)
    (r1 r2 n : Vector3) : ℚ :=
  minv1 + minv2 + ((i1.mulVec (r1.cross n)).cross r1).dot n +
    ((i2.mulVec (r2.cross n)).cross r2).dot n

/-- Lines 209-211 (and identically 297-303 for the three friction masses):
```
massPenetration > decimal(0.0) ? ...inversePenetrationMass = decimal(1.0) /
                                    massPenetration :
                                    decimal(0.0);
```
This is a C++ conditional *expression* whose false branch merely evaluates
`decimal(0.0)` and discards it: the field is assigned only when the
denominator is strictly positive, and otherwise keeps the value it already
had (for a freshly `new[]`-allocated constraint slot, an indeterminate
default-initialized value, modelled here by the explicit `prev` argument). -/
def invMassTernary (prev mass : ℚ) : ℚ :=
  if mass > 0 then 1 / mass else prev

/-- The per-contact-point body of the initialization loop
(lines 157-240), producing the penetration constraint written into slot
`mNbPenetrationConstraints`.  `prevInversePenetrationMass` is the
indeterminate prior content of that slot's `inversePenetrationMass` field
(the only field the loop body does not always assign; see `invMassTernary`).
`v1 w1 v2 w2` are the initialization-time body velocities (lines 112-115),
`x1 x2` the body centers of mass (lines 108-109), `warm` is
`mIsWarmStartingActive` and `cachedImpulse` the contact point's cached
`getPenetrationImpulse()` (line 227). -/
def initPenetrationConstraint (warm : Bool) (indexBody1 indexBody2 : ℕ)
    (i1 i2 : Matrix3x3) (minv1 minv2 restitutionFactor : ℚ)
    (frictionIdx : ℕ) (p1 p2 x1 x2 n : Vector3) (depth : ℚ)
    (restingIn : Bool) (cachedImpulse : ℚ) (v1 w1 v2 w2 : Vector3)
    (prevInversePenetrationMass : ℚ) : PenetrationConstraint :=
  let r1 := p1 - x1
  let r2 := p2 - x2
  let deltaV := v2 + w2.cross r2 - v1 - w1.cross r1
  let r1CrossN := r1.cross n
  let r2CrossN := r2.cross n
  let mass := massPenetration minv1 minv2 i1 i2 r1 r2 n
  let deltaVDotN := deltaV.dot n
  { indexBody1 := indexBody1
    indexBody2 := indexBody2
    inverseInertiaTensorBody1 := i1
    inverseInertiaTensorBody2 := i2
    massInverseBody1 := minv1
    massInverseBody2 := minv2
    restitutionFactor := restitutionFactor
    indexFrictionConstraint := frictionIdx
    r1 := r1
    r2 := r2
    normal := n
    penetrationDepth := depth
    isRestingContact := restingIn
    r1CrossN := r1CrossN
    r2CrossN := r2CrossN
    inversePenetrationMass := invMassTernary prevInversePenetrationMass mass
    restitutionBias :=
      if deltaVDotN < -RESTITUTION_VELOCITY_THRESHOLD then
        restitutionFactor * deltaVDotN
      else 0
    penetrationImpulse := if warm then cachedImpulse else 0
    penetrationSplitImpulse := 0 }

/-- Seeding of the accumulated friction impulses (lines 253-268).  If warm
starting is active, `friction1Impulse`, `friction2Impulse` and
`frictionTwistImpulse` are taken from the manifold's cached values; the
`else` branch zeroes those three *and* `rollingResistanceImpulse`.  Note the
warm branch does not assign `rollingResistanceImpulse` at all, so it keeps
the freshly allocated slot's indeterminate content. -/
def initFrictionImpulses (warm : Bool)
    (cachedFriction1 cachedFriction2 cachedTwist : ℚ)
    (fc : FrictionConstraint) : FrictionConstraint :=
  if warm then
    { fc with
      friction1Impulse := cachedFriction1
      friction2Impulse := cachedFriction2
      frictionTwistImpulse := cachedTwist }
  else
    { fc with
      friction1Impulse := 0
      friction2Impulse := 0
      frictionTwistImpulse := 0
      rollingResistanceImpulse := 0 }

/-- The friction effective-mass block (lines 279-303): precompute the four
cross products, compute the denominators `friction1Mass`, `friction2Mass`,
`frictionTwistMass`, and run the three conditional-expression statements
(same `invMassTernary` pattern as lines 209-211). -/
def setFrictionMasses (fc : FrictionConstraint) : FrictionConstraint :=
  let r1CrossT1 := fc.r1Friction.cross fc.frictionVector1
  let r1CrossT2 := fc.r1Friction.cross fc.frictionVector2
  let r2CrossT1 := fc.r2Friction.cross fc.frictionVector1
  let r2CrossT2 := fc.r2Friction.cross fc.frictionVector2
  let friction1Mass := fc.massInverseBody1 + fc.massInverseBody2 +
    ((fc.inverseInertiaTensorBody1.mulVec r1CrossT1).cross fc.r1Friction).dot
      fc.frictionVector1 +
    ((fc.inverseInertiaTensorBody2.mulVec r2CrossT1).cross fc.r2Friction).dot
      fc.frictionVector1
  let friction2Mass := fc.massInverseBody1 + fc.massInverseBody2 +
    ((fc.inverseInertiaTensorBody1.mulVec r1CrossT2).cross fc.r1Friction).dot
      fc.frictionVector2 +
    ((fc.inverseInertiaTensorBody2.mulVec r2CrossT2).cross fc.r2Friction).dot
      fc.frictionVector2
  let frictionTwistMass :=
    fc.normal.dot (fc.inverseInertiaTensorBody1.mulVec fc.normal) +
    fc.normal.dot (fc.inverseInertiaTensorBody2.mulVec fc.normal)
  { fc with
    r1CrossT1 := r1CrossT1
    r1CrossT2 := r1CrossT2
    r2CrossT1 := r2CrossT1
    r2CrossT2 := r2CrossT2
    inverseFriction1Mass := invMassTernary fc.inverseFriction1Mass friction1Mass
    inverseFriction2Mass := invMassTernary fc.inverseFriction2Mass friction2Mass
    inverseTwistFrictionMass :=
      invMassTernary fc.inverseTwistFrictionMass frictionTwistMass }

/-! ### Allocation model for C10

`initializeForIsland` allocates `mNbContactManifolds * 4` penetration slots
(line 76) and then, for each manifold, appends one penetration constraint per
contact point, writing slot `mNbPenetrationConstraints` and incrementing the
count (lines 157-240, increment at line 238).  Only the counts matter to the
bounds claim, so a manifold is abstracted by its number of contact points. -/

/-- Penetration-slot capacity allocated at line 76:
`new PenetrationConstraint[mNbContactManifolds * 4]`. -/
def penCapacity (manifolds : List ℕ) : ℕ := 4 * manifolds.length

/-- The sequence of array indices written by the initialization loop, in
order: the manifold loop threads `mNbPenetrationConstraints` (starting at 0,
line 69) and the inner contact-point loop writes slot
`mNbPenetrationConstraints` once per contact point before incrementing it. -/
def penWriteIndicesAux (start : ℕ) : List ℕ → List ℕ
  | [] => []
  | m :: ms => ((List.range m).map fun j => start + j) ++
      penWriteIndicesAux (start + m) ms

/-- All penetration-slot indices written during `initializeForIsland`. -/
def penWriteIndices (manifolds : List ℕ) : List ℕ :=
  penWriteIndicesAux 0 manifolds

/-- The final `mNbPenetrationConstraints`: one constraint per contact point. -/
def nbPenAfterInit (manifolds : List ℕ) : ℕ := manifolds.sum

theorem penWriteIndicesAux_lt (start : ℕ) (ms : List ℕ) :
    ∀ k ∈ penWriteIndicesAux start ms, k < start + ms.sum := by
  induction ms generalizing start with
  | nil => simp [penWriteIndicesAux]
  | cons m ms ih =>
    intro k hk
    simp only [penWriteIndicesAux, List.mem_append, List.mem_map,
      List.mem_range] at hk
    rcases hk with ⟨j, hj, rfl⟩ | hk
    · have : start + j < start + m := by omega
      calc start + j < start + m := this
        _ ≤ start + (m + ms.sum) := by omega
        _ = start + (m :: ms).sum := by simp
    · have := ih (start + m) k hk
      simpa [List.sum_cons, Nat.add_assoc] using this

/-! ## Warm start (`warmStart`, lines 472-750; live code 477-578) -/

/-- The per-penetration-constraint warm-start application (lines 477-502).
For a resting contact the cached impulse `P = normal * penetrationImpulse`
is applied; note that the *body-2* angular update at line 494 multiplies
`inverseInertiaTensorBody2` by `(-r1CrossN * penetrationImpulse)` - it
reuses body 1's cross product `r1CrossN` (with body 1's sign), exactly as
written in the source.  For a non-resting contact the accumulated impulse is
reset to 0 (line 500). -/
def warmStartPenetrationOne (pc : PenetrationConstraint) (s : SolverState) :
    PenetrationConstraint × SolverState :=
  if pc.isRestingContact then
    let linearImpulse := pc.penetrationImpulse • pc.normal
    let lin1 := updV s.linV pc.indexBody1 (pc.massInverseBody1 • (-linearImpulse))
    let ang1 := updV s.angV pc.indexBody1
      (pc.inverseInertiaTensorBody1.mulVec
        (pc.penetrationImpulse • (-pc.r1CrossN)))
    let lin2 := updV lin1 pc.indexBody2 (pc.massInverseBody2 • linearImpulse)
    let ang2 := updV ang1 pc.indexBody2
      (pc.inverseInertiaTensorBody2.mulVec
        (pc.penetrationImpulse • (-pc.r1CrossN)))
    (pc, { s with linV := lin2, angV := ang2 })
  else
    ({ pc with penetrationImpulse := 0 }, s)

/-- The per-friction-constraint warm-start application (lines 505-578).
If the manifold has at least one resting contact point, the cached impulses
are first reprojected from the previous frame's tangent basis onto the
current one (lines 513-516) and then applied as four impulses (tangent 1,
tangent 2, twist, rolling resistance); otherwise all four accumulators are
zeroed (lines 573-576). -/
def warmStartFrictionOne (fc : FrictionConstraint) (s : SolverState) :
    FrictionConstraint × SolverState :=
  if fc.hasAtLeastOneRestingContactPoint then
    let oldFrictionImpulse := fc.friction1Impulse • fc.oldFrictionVector1 +
      fc.friction2Impulse • fc.oldFrictionVector2
    let j1 := oldFrictionImpulse.dot fc.frictionVector1
    let j2 := oldFrictionImpulse.dot fc.frictionVector2
    -- first friction constraint (lines 521-531)
    let linearImpulseBody2 := j1 • fc.frictionVector1
    let lin1 := updV s.linV fc.indexBody1
      (fc.massInverseBody1 • (-linearImpulseBody2))
    let ang1 := updV s.angV fc.indexBody1
      (fc.inverseInertiaTensorBody1.mulVec (j1 • (-fc.r1CrossT1)))
    let lin2 := updV lin1 fc.indexBody2
      (fc.massInverseBody2 • linearImpulseBody2)
    let ang2 := updV ang1 fc.indexBody2
      (fc.inverseInertiaTensorBody2.mulVec (j1 • fc.r2CrossT1))
    -- second friction constraint (lines 536-546)
    let linearImpulseBody2' := j2 • fc.frictionVector2
    let lin3 := updV lin2 fc.indexBody1
      (fc.massInverseBody1 • (-linearImpulseBody2'))
    let ang3 := updV ang2 fc.indexBody1
      (fc.inverseInertiaTensorBody1.mulVec (j2 • (-fc.r1CrossT2)))
    let lin4 := updV lin3 fc.indexBody2
      (fc.massInverseBody2 • linearImpulseBody2')
    let ang4 := updV ang3 fc.indexBody2
      (fc.inverseInertiaTensorBody2.mulVec (j2 • fc.r2CrossT2))
    -- twist friction constraint (lines 551-557)
    let angularImpulseTwist := fc.frictionTwistImpulse • fc.normal
    let ang5 := updV ang4 fc.indexBody1
      (fc.inverseInertiaTensorBody1.mulVec (-angularImpulseTwist))
    let ang6 := updV ang5 fc.indexBody2
      (fc.inverseInertiaTensorBody2.mulVec angularImpulseTwist)
    -- rolling resistance (lines 562-568)
    let ang7 := updV ang6 fc.indexBody1
      (fc.inverseInertiaTensorBody1.mulVec (-fc.rollingResistanceImpulse))
    let ang8 := updV ang7 fc.indexBody2
      (fc.inverseInertiaTensorBody2.mulVec fc.rollingResistanceImpulse)
    ({ fc with friction1Impulse := j1, friction2Impulse := j2 },
     { s with linV := lin4, angV := ang8 })
  else
    ({ fc with
        friction1Impulse := 0
        friction2Impulse := 0
        frictionTwistImpulse := 0
        rollingResistanceImpulse := 0 }, s)

/-! ## Penetration sweep (`solvePenetrationConstraints`, lines 761-847) -/

/-- The Baumgarte positional bias `biasPenetrationDepth` (lines 787-790):
`beta` is `BETA_SPLIT_IMPULSE` when split impulse is active, else `BETA`,
and the bias is `-(beta/dt) * max(0, depth - SLOP)` when `depth > SLOP`,
else 0. -/
def biasPen (split : Bool) (dt : ℚ) (pc : PenetrationConstraint) : ℚ :=
  let beta := if split then BETA_SPLIT_IMPULSE else BETA
  if pc.penetrationDepth > SLOP then
    -(beta / dt) * max 0 (pc.penetrationDepth - SLOP)
  else 0

/-- The unclamped Lagrange-multiplier increment of the velocity-space
penetration solve (lines 791-800): with split impulse active,
`-(Jv + restitutionBias) * inversePenetrationMass`; otherwise
`-(Jv + b) * inversePenetrationMass` with
`b = biasPenetrationDepth + restitutionBias` (line 791). -/
def penDeltaLambdaUnclamped (split : Bool) (dt : ℚ)
    (pc : PenetrationConstraint) (jv : ℚ) : ℚ :=
  if split then -(jv + pc.restitutionBias) * pc.inversePenetrationMass
  else -(jv + (biasPen split dt pc + pc.restitutionBias)) *
    pc.inversePenetrationMass

/-- The main (velocity-space) part of one penetration-constraint iteration
(lines 776-816): compute `Jv`, the clamped increment via projection
`lambda := max(lambda + deltaLambda, 0)`, accumulate the new `lambda` into
the owning friction constraint's `totalPenetrationImpulse` (line 807), and
apply the impulse to the main velocity buffers. -/
def penMainStep (split : Bool) (dt : ℚ) (pc : PenetrationConstraint)
    (s : SolverState) (fcs : ℕ → FrictionConstraint) :
    PenetrationConstraint × SolverState × (ℕ → FrictionConstraint) :=
  let v1 := s.linV pc.indexBody1
  let w1 := s.angV pc.indexBody1
  let v2 := s.linV pc.indexBody2
  let w2 := s.angV pc.indexBody2
  let deltaV := v2 + w2.cross pc.r2 - v1 - w1.cross pc.r1
  let jv := deltaV.dot pc.normal
  let lambdaTemp := pc.penetrationImpulse
  let newLambda :=
    max (pc.penetrationImpulse + penDeltaLambdaUnclamped split dt pc jv) 0
  let deltaLambda := newLambda - lambdaTemp
  let pc' := { pc with penetrationImpulse := newLambda }
  let fcs' := fun j => if j = pc.indexFrictionConstraint then
      { fcs j with totalPenetrationImpulse :=
          (fcs j).totalPenetrationImpulse + newLambda }
    else fcs j
  let linearImpulse := deltaLambda • pc.normal
  let lin1 := updV s.linV pc.indexBody1
    (pc.massInverseBody1 • (-linearImpulse))
  let ang1 := updV s.angV pc.indexBody1
    (pc.inverseInertiaTensorBody1.mulVec (deltaLambda • (-pc.r1CrossN)))
  let lin2 := updV lin1 pc.indexBody2 (pc.massInverseBody2 • linearImpulse)
  let ang2 := updV ang1 pc.indexBody2
    (pc.inverseInertiaTensorBody2.mulVec (deltaLambda • pc.r2CrossN))
  (pc', { s with linV := lin2, angV := ang2 }, fcs')

/-- The split-impulse sub-step (lines 819-845): identical projection against
the split velocity buffers, bias `biasPenetrationDepth`, accumulator
`penetrationSplitImpulse`; reads and writes only `mSplitLinearVelocities` /
`mSplitAngularVelocities`. -/
def penSplitStep (dt : ℚ) (pc : PenetrationConstraint) (s : SolverState) :
    PenetrationConstraint × SolverState :=
  let v1Split := s.splitLinV pc.indexBody1
  let w1Split := s.splitAngV pc.indexBody1
  let v2Split := s.splitLinV pc.indexBody2
  let w2Split := s.splitAngV pc.indexBody2
  let deltaVSplit := v2Split + w2Split.cross pc.r2 - v1Split -
    w1Split.cross pc.r1
  let jvSplit := deltaVSplit.dot pc.normal
  let deltaLambdaSplit := -(jvSplit + biasPen true dt pc) *
    pc.inversePenetrationMass
  let lambdaTempSplit := pc.penetrationSplitImpulse
  let newLambdaSplit :=
    max (pc.penetrationSplitImpulse + deltaLambdaSplit) 0
  let d := newLambdaSplit - lambdaTempSplit
  let pc' := { pc with penetrationSplitImpulse := newLambdaSplit }
  let linearImpulse := d • pc.normal
  let lin1 := updV s.splitLinV pc.indexBody1
    (pc.massInverseBody1 • (-linearImpulse))
  let ang1 := updV s.splitAngV pc.indexBody1
    (pc.inverseInertiaTensorBody1.mulVec (d • (-pc.r1CrossN)))
  let lin2 := updV lin1 pc.indexBody2 (pc.massInverseBody2 • linearImpulse)
  let ang2 := updV ang1 pc.indexBody2
    (pc.inverseInertiaTensorBody2.mulVec (d • pc.r2CrossN))
  (pc', { s with splitLinV := lin2, splitAngV := ang2 })

/-- One full penetration-constraint iteration (lines 773-846): the main
velocity-space step followed, when split impulse is active, by the
split-impulse sub-step. -/
def solvePenetrationOne (split : Bool) (dt : ℚ) (pc : PenetrationConstraint)
    (s : SolverState) (fcs : ℕ → FrictionConstraint) :
    PenetrationConstraint × SolverState × (ℕ → FrictionConstraint) :=
  let r := penMainStep split dt pc s fcs
  if split then
    let r' := penSplitStep dt r.1 r.2.1
    (r'.1, r'.2, r.2.2)
  else r

/-- One Gauss-Seidel sweep over the penetration-constraint array in index
order (the `for` loop at line 773). -/
def solvePenetrationSweep (split : Bool) (dt : ℚ) :
    List PenetrationConstraint → SolverState → (ℕ → FrictionConstraint) →
    List PenetrationConstraint × SolverState × (ℕ → FrictionConstraint)
  | [], s, fcs => ([], s, fcs)
  | pc :: pcs, s, fcs =>
    let r := solvePenetrationOne split dt pc s fcs
    let rest := solvePenetrationSweep split dt pcs r.2.1 r.2.2
    (r.1 :: rest.1, rest.2)

/-! ## Friction sweep (`solveFrictionConstraints`, lines 850-979) -/

/-- Modelled from the spec: the vector `clamp(Vector3, decimal)` helper used
at line 964 lives in the engine's math headers, which are not part of the
given source.  Spec section 4.4 and the design notes fix its contract:
"clamps the 3-vector impulse coordinate-wise to `[-L, L]` rather than
projecting onto an L2 ball" (each component independently). -/
def clampVec (v : Vector3) (limit : ℚ) : Vector3 :=
  ⟨max (-limit) (min v.x limit), max (-limit) (min v.y limit),
   max (-limit) (min v.z limit)⟩

/-- One friction-constraint iteration (lines 857-978): the two tangent
constraints, the twist constraint and (when `rollingResistanceFactor > 0`)
the rolling-resistance constraint, each clamped by the Coulomb limit
`frictionCoefficient * totalPenetrationImpulse` (`rollingResistanceFactor *
totalPenetrationImpulse` for rolling).  The C++ manipulates the buffer
entries through references `v1, w1, v2, w2`, so each constraint reads the
velocities already updated by the previous one; the sequential `updV`
updates below reproduce that (including aliasing when the two body indices
coincide). -/
def solveFrictionOne (fc : FrictionConstraint) (s : SolverState) :
    FrictionConstraint × SolverState :=
  -- ------ first friction constraint (lines 865-893) ------
  let v1 := s.linV fc.indexBody1
  let w1 := s.angV fc.indexBody1
  let v2 := s.linV fc.indexBody2
  let w2 := s.angV fc.indexBody2
  let deltaV := v2 + w2.cross fc.r2Friction - v1 - w1.cross fc.r1Friction
  let jv1 := deltaV.dot fc.frictionVector1
  let frictionLimit := fc.frictionCoefficient * fc.totalPenetrationImpulse
  let newJ1 := max (-frictionLimit)
    (min (fc.friction1Impulse + -jv1 * fc.inverseFriction1Mass) frictionLimit)
  let d1 := newJ1 - fc.friction1Impulse
  let linearImpulseBody2 := d1 • fc.frictionVector1
  let lin1 := updV s.linV fc.indexBody1
    (fc.massInverseBody1 • (-linearImpulseBody2))
  let ang1 := updV s.angV fc.indexBody1
    (fc.inverseInertiaTensorBody1.mulVec (d1 • (-fc.r1CrossT1)))
  let lin2 := updV lin1 fc.indexBody2
    (fc.massInverseBody2 • linearImpulseBody2)
  let ang2 := updV ang1 fc.indexBody2
    (fc.inverseInertiaTensorBody2.mulVec (d1 • fc.r2CrossT1))
  -- ------ second friction constraint (lines 895-923) ------
  let v1' := lin2 fc.indexBody1
  let w1' := ang2 fc.indexBody1
  let v2' := lin2 fc.indexBody2
  let w2' := ang2 fc.indexBody2
  let deltaV' := v2' + w2'.cross fc.r2Friction - v1' - w1'.cross fc.r1Friction
  let jv2 := deltaV'.dot fc.frictionVector2
  let newJ2 := max (-frictionLimit)
    (min (fc.friction2Impulse + -jv2 * fc.inverseFriction2Mass) frictionLimit)
  let d2 := newJ2 - fc.friction2Impulse
  let linearImpulseBody2' := d2 • fc.frictionVector2
  let lin3 := updV lin2 fc.indexBody1
    (fc.massInverseBody1 • (-linearImpulseBody2'))
  let ang3 := updV ang2 fc.indexBody1
    (fc.inverseInertiaTensorBody1.mulVec (d2 • (-fc.r1CrossT2)))
  let lin4 := updV lin3 fc.indexBody2
    (fc.massInverseBody2 • linearImpulseBody2')
  let ang4 := updV ang3 fc.indexBody2
    (fc.inverseInertiaTensorBody2.mulVec (d2 • fc.r2CrossT2))
  -- ------ twist friction constraint (lines 925-951) ------
  let jvTwist := (ang4 fc.indexBody2 - ang4 fc.indexBody1).dot fc.normal
  let newJt := max (-frictionLimit)
    (min (fc.frictionTwistImpulse + -jvTwist * fc.inverseTwistFrictionMass)
      frictionLimit)
  let dt' := newJt - fc.frictionTwistImpulse
  let lin5 := updV lin4 fc.indexBody1 (fc.massInverseBody1 • (0 : Vector3))
  let ang5 := updV ang4 fc.indexBody1
    (fc.inverseInertiaTensorBody1.mulVec (-(dt' • fc.normal)))
  let lin6 := updV lin5 fc.indexBody2 (fc.massInverseBody2 • (0 : Vector3))
  let ang6 := updV ang5 fc.indexBody2
    (fc.inverseInertiaTensorBody2.mulVec (dt' • fc.normal))
  -- ------ rolling resistance constraint (lines 953-977) ------
  if fc.rollingResistanceFactor > 0 then
    let jvRolling := ang6 fc.indexBody2 - ang6 fc.indexBody1
    let deltaLambdaRolling := fc.inverseRollingResistance.mulVec (-jvRolling)
    let rollingLimit := fc.rollingResistanceFactor * fc.totalPenetrationImpulse
    let newRoll := clampVec (fc.rollingResistanceImpulse + deltaLambdaRolling)
      rollingLimit
    let dRoll := newRoll - fc.rollingResistanceImpulse
    let ang7 := updV ang6 fc.indexBody1
      (fc.inverseInertiaTensorBody1.mulVec (-dRoll))
    let ang8 := updV ang7 fc.indexBody2
      (fc.inverseInertiaTensorBody2.mulVec dRoll)
    ({ fc with
        friction1Impulse := newJ1
        friction2Impulse := newJ2
        frictionTwistImpulse := newJt
        rollingResistanceImpulse := newRoll },
     { s with linV := lin6, angV := ang8 })
  else
    ({ fc with
        friction1Impulse := newJ1
        friction2Impulse := newJ2
        frictionTwistImpulse := newJt },
     { s with linV := lin6, angV := ang6 })

/-- One sweep over the friction-constraint array in index order (the `for`
loop at line 857). -/
def solveFrictionSweep : List FrictionConstraint → SolverState →
    List FrictionConstraint × SolverState
  | [], s => ([], s)
  | fc :: fcs, s =>
    let r := solveFrictionOne fc s
    let rest := solveFrictionSweep fcs r.2
    (r.1 :: rest.1, rest.2)

/-- Method `resetTotalPenetrationImpulse` (lines 753-758): zero the running
per-manifold total before a penetration sweep. -/
def resetTotal (fcs : ℕ → FrictionConstraint) : ℕ → FrictionConstraint :=
  fun j => { fcs j with totalPenetrationImpulse := 0 }

/-! ## Concrete sample data used by witnesses and counterexamples -/

/-- An all-zero penetration constraint, base for concrete test inputs. -/
def pcZero : PenetrationConstraint :=
  { indexBody1 := 0, indexBody2 := 1
    inverseInertiaTensorBody1 := 0, inverseInertiaTensorBody2 := 0
    massInverseBody1 := 0, massInverseBody2 := 0
    restitutionFactor := 0, indexFrictionConstraint := 0
    r1 := 0, r2 := 0, normal := 0, penetrationDepth := 0
    isRestingContact := false, r1CrossN := 0, r2CrossN := 0
    inversePenetrationMass := 0, restitutionBias := 0
    penetrationImpulse := 0, penetrationSplitImpulse := 0 }

/-- An all-zero friction constraint, base for concrete test inputs. -/
def fcZero : FrictionConstraint :=
  { indexBody1 := 0, indexBody2 := 1
    inverseInertiaTensorBody1 := 0, inverseInertiaTensorBody2 := 0
    massInverseBody1 := 0, massInverseBody2 := 0
    frictionCoefficient := 0, rollingResistanceFactor := 0
    normal := 0, frictionPointBody1 := 0, frictionPointBody2 := 0
    r1Friction := 0, r2Friction := 0
    frictionVector1 := 0, frictionVector2 := 0
    oldFrictionVector1 := 0, oldFrictionVector2 := 0
    r1CrossT1 := 0, r1CrossT2 := 0, r2CrossT1 := 0, r2CrossT2 := 0
    inverseFriction1Mass := 0, inverseFriction2Mass := 0
    inverseTwistFrictionMass := 0, inverseRollingResistance := 0
    friction1Impulse := 0, friction2Impulse := 0
    frictionTwistImpulse := 0, rollingResistanceImpulse := 0
    totalPenetrationImpulse := 0, hasAtLeastOneRestingContactPoint := false }

/-- All four velocity buffers zero. -/
def stateZero : SolverState :=
  { linV := fun _ => 0, angV := fun _ => 0
    splitLinV := fun _ => 0, splitAngV := fun _ => 0 }

/-- Concrete input for C2: a resting contact with cached impulse 1,
`r1CrossN = (0,0,1)`, `r2CrossN = (0,0,2)` and identity `Iinv` on body 2. -/
def pcC2 : PenetrationConstraint :=
  { pcZero with
    isRestingContact := true
    penetrationImpulse := 1
    r1CrossN := ⟨0, 0, 1⟩
    r2CrossN := ⟨0, 0, 2⟩
    inverseInertiaTensorBody2 := Matrix3x3.identity }

/-- Concrete input for C3: a manifold with a resting contact whose freshly
allocated slot happens to hold `(5,0,0)` in `rollingResistanceImpulse`,
with identity `Iinv` on body 2. -/
def fcC3 : FrictionConstraint :=
  { fcZero with
    hasAtLeastOneRestingContactPoint := true
    rollingResistanceImpulse := ⟨5, 0, 0⟩
    inverseInertiaTensorBody2 := Matrix3x3.identity }

/-! ## Claims -/

/-- C1: the claim says `inversePenetrationMass = 1/K_n` when `K_n > 0` and
`= 0` when `K_n ≤ 0` (likewise the three friction masses).  The code's
lines 209-211 (and 297-303) are conditional *expressions* whose false branch
evaluates `decimal(0.0)` without assigning it, so when the denominator is
non-positive the field keeps the freshly allocated slot's indeterminate
content instead of 0.  Here: a contact between two static bodies
(`Minv = 0`, `Iinv = 0`, so `K_n = 0`) whose slot previously held 1 yields
`inversePenetrationMass = 1 ≠ 0`, and the analogous friction-mass ternaries
keep their prior content 1 as well. -/
theorem C1_inverse_mass_not_zeroed :
    massPenetration 0 0 0 0 0 0 ⟨0, 1, 0⟩ = 0 ∧
    (initPenetrationConstraint true 0 1 0 0 0 0 0 0 0 0 0 0 ⟨0, 1, 0⟩ 0
        false 0 0 0 0 0 1).inversePenetrationMass = 1 ∧
    (setFrictionMasses { fcZero with
        inverseFriction1Mass := 1
        inverseFriction2Mass := 1
        inverseTwistFrictionMass := 1 }).inverseFriction1Mass = 1 ∧
    (setFrictionMasses { fcZero with
        inverseFriction1Mass := 1
        inverseFriction2Mass := 1
        inverseTwistFrictionMass := 1 }).inverseTwistFrictionMass = 1 ∧
    (1 : ℚ) ≠ 0 := by
  refine ⟨?_, ?_, ?_, ?_, by norm_num⟩ <;>
    norm_num [massPenetration, initPenetrationConstraint, setFrictionMasses,
      invMassTernary, fcZero, Vector3.dot, Vector3.cross, Matrix3x3.mulVec]

/-- C2: the claim says each body's warm-start angular update uses that
body's own cross product (`rA x n` for A, `rB x n` for B).  Line 494 of the
source instead updates body B's angular velocity with
`Iinv_B * (-rA x n * lambda)`, reusing body A's cross product with body A's
sign.  At the concrete resting contact `pcC2` (`lambda = 1`,
`rA x n = (0,0,1)`, `rB x n = (0,0,2)`, `Iinv_B = I`) the code produces
`omega_B = (0,0,-1)` whereas the claimed update gives `(0,0,2)`. -/
theorem C2_warm_start_body2_wrong_cross :
    (warmStartPenetrationOne pcC2 stateZero).2.angV 1 =
      pcC2.inverseInertiaTensorBody2.mulVec
        (pcC2.penetrationImpulse • (-pcC2.r1CrossN)) ∧
    (warmStartPenetrationOne pcC2 stateZero).2.angV 1 = ⟨0, 0, -1⟩ ∧
    pcC2.inverseInertiaTensorBody2.mulVec
      (pcC2.penetrationImpulse • pcC2.r2CrossN) = ⟨0, 0, 2⟩ ∧
    ((⟨0, 0, -1⟩ : Vector3) ≠ ⟨0, 0, 2⟩) := by
  refine ⟨?_, ?_, ?_, ?_⟩ <;>
    norm_num [warmStartPenetrationOne, pcC2, pcZero, stateZero, updV,
      Vector3.dot, Vector3.cross, Matrix3x3.mulVec, Matrix3x3.identity,
      Vector3.mk.injEq, Vector3.zero_def]

/-- C3: the claim says that with warm starting enabled all four accumulated
friction impulses (J1, J2, Jtwist and Jroll) are initialized from the
manifold's cached values, so that everything `warmStart` applies has been
initialized.  The warm branch of lines 253-260 reads only three cached
values and never assigns `rollingResistanceImpulse` (only the `else` branch
at line 267 zeroes it), yet `warmStart` (line 562) applies it as an angular
impulse.  At `fcC3`, whose freshly allocated slot holds `(5,0,0)`, the warm
branch leaves `(5,0,0)` in place (the cold branch correctly zeroes it) and
`warmStart` then injects `Iinv_B * (5,0,0) = (5,0,0)` into body B's angular
velocity. -/
theorem C3_rolling_impulse_not_seeded :
    (initFrictionImpulses true 0 0 0 fcC3).rollingResistanceImpulse =
      ⟨5, 0, 0⟩ ∧
    (initFrictionImpulses false 0 0 0 fcC3).rollingResistanceImpulse = 0 ∧
    (warmStartFrictionOne (initFrictionImpulses true 0 0 0 fcC3)
        stateZero).2.angV 1 = ⟨5, 0, 0⟩ ∧
    ((⟨5, 0, 0⟩ : Vector3) ≠ (0 : Vector3)) := by
  refine ⟨?_, ?_, ?_, ?_⟩ <;>
    norm_num [initFrictionImpulses, warmStartFrictionOne, fcC3, fcZero,
      stateZero, updV, Vector3.dot, Vector3.cross, Matrix3x3.mulVec,
      Matrix3x3.identity, Vector3.mk.injEq, Vector3.mk_eq_zero_iff]

/-! ### C10: allocation bounds -/

theorem sum_le_four_mul_length :
    ∀ ms : List ℕ, (∀ m ∈ ms, m ≤ 4) → ms.sum ≤ 4 * ms.length
  | [], _ => by simp
  | m :: ms, h => by
    have h1 : m ≤ 4 := h m (List.mem_cons_self m ms)
    have h2 := sum_le_four_mul_length ms fun x hx => h x (List.mem_cons_of_mem _ hx)
    simp only [List.sum_cons, List.length_cons]
    omega

/-- C10: `initializeForIsland` allocates `4 * (number of manifolds)`
penetration slots (line 76) and appends one penetration constraint per
contact point (lines 157-240).  If every manifold has at most 4 contact
points, the final constraint count fits the allocation, every slot index
written during initialization is in bounds, and so is every index the
sweeps later read (they iterate over `i < mNbPenetrationConstraints`). -/
theorem C10_pen_slots_in_bounds (manifolds : List ℕ)
    (h : ∀ m ∈ manifolds, m ≤ 4) :
    nbPenAfterInit manifolds ≤ penCapacity manifolds ∧
    (∀ k ∈ penWriteIndices manifolds, k < penCapacity manifolds) ∧
    (∀ k < nbPenAfterInit manifolds, k < penCapacity manifolds) := by
  have hsum := sum_le_four_mul_length manifolds h
  refine ⟨hsum, ?_, ?_⟩
  · intro k hk
    have hlt := penWriteIndicesAux_lt 0 manifolds k hk
    simp only [Nat.zero_add] at hlt
    exact lt_of_lt_of_le hlt hsum
  · intro k hk
    exact lt_of_lt_of_le hk hsum

/-- C10 witness: a concrete island with three manifolds of 4, 2 and 1
contact points. -/
theorem C10_pen_slots_in_bounds_witness :
    (∀ m ∈ [4, 2, 1], m ≤ 4) ∧
    (nbPenAfterInit [4, 2, 1] ≤ penCapacity [4, 2, 1] ∧
      (∀ k ∈ penWriteIndices [4, 2, 1], k < penCapacity [4, 2, 1]) ∧
      (∀ k < nbPenAfterInit [4, 2, 1], k < penCapacity [4, 2, 1])) :=
  ⟨by decide, C10_pen_slots_in_bounds [4, 2, 1] (by decide)⟩

/-! ### C5: non-negativity of the accumulated normal impulses -/

theorem penMainStep_impulses (split : Bool) (dt : ℚ)
    (pc : PenetrationConstraint) (s : SolverState)
    (fcs : ℕ → FrictionConstraint) :
    0 ≤ (penMainStep split dt pc s fcs).1.penetrationImpulse ∧
    (penMainStep split dt pc s fcs).1.penetrationSplitImpulse =
      pc.penetrationSplitImpulse := by
  constructor
  · simp only [penMainStep]
    exact le_max_right _ _
  · simp only [penMainStep]

theorem penSplitStep_impulses (dt : ℚ) (pc : PenetrationConstraint)
    (s : SolverState) :
    (penSplitStep dt pc s).1.penetrationImpulse = pc.penetrationImpulse ∧
    0 ≤ (penSplitStep dt pc s).1.penetrationSplitImpulse := by
  constructor
  · simp only [penSplitStep]
  · simp only [penSplitStep]
    exact le_max_right _ _

theorem solvePenetrationOne_impulses (split : Bool) (dt : ℚ)
    (pc : PenetrationConstraint) (s : SolverState)
    (fcs : ℕ → FrictionConstraint)
    (hsplit : 0 ≤ pc.penetrationSplitImpulse) :
    0 ≤ (solvePenetrationOne split dt pc s fcs).1.penetrationImpulse ∧
    0 ≤ (solvePenetrationOne split dt pc s fcs).1.penetrationSplitImpulse := by
  cases split with
  | false =>
    simp only [solvePenetrationOne, Bool.false_eq_true, if_false]
    refine ⟨(penMainStep_impulses false dt pc s fcs).1, ?_⟩
    rw [(penMainStep_impulses false dt pc s fcs).2]
    exact hsplit
  | true =>
    simp only [solvePenetrationOne, if_true]
    constructor
    · rw [(penSplitStep_impulses dt _ _).1]
      exact (penMainStep_impulses true dt pc s fcs).1
    · exact (penSplitStep_impulses dt _ _).2

theorem solvePenetrationSweep_impulses (split : Bool) (dt : ℚ) :
    ∀ (pcs : List PenetrationConstraint) (s : SolverState)
      (fcs : ℕ → FrictionConstraint),
      (∀ pc ∈ pcs, 0 ≤ pc.penetrationSplitImpulse) →
      ∀ pc' ∈ (solvePenetrationSweep split dt pcs s fcs).1,
        0 ≤ pc'.penetrationImpulse ∧ 0 ≤ pc'.penetrationSplitImpulse
  | [], _, _, _ => by simp [solvePenetrationSweep]
  | pc :: pcs, s, fcs, h => by
    intro pc' hpc'
    simp only [solvePenetrationSweep, List.mem_cons] at hpc'
    rcases hpc' with rfl | hpc'
    · exact solvePenetrationOne_impulses split dt pc s fcs
        (h pc (List.mem_cons_self pc pcs))
    · exact solvePenetrationSweep_impulses split dt pcs _ _
        (fun x hx => h x (List.mem_cons_of_mem _ hx)) pc' hpc'

/-- C5: the accumulated normal impulse and the accumulated split impulse
are non-negative after `initializeForIsland` (the split impulse is zeroed
at line 231, and `lambda` is either 0 or the previous frame's cached
impulse, itself a stored non-negative `lambda`), and stay non-negative
across every `solvePenetrationConstraints` sweep because both projections
take a `max` with 0 (lines 802-803 and 832-834) before applying the
clamped delta. -/
theorem C5_lambda_nonneg :
    (∀ warm iB1 iB2 i1 i2 minv1 minv2 e fIdx p1 p2 x1 x2 n depth resting
       (cached : ℚ) v1 w1 v2 w2 prev, 0 ≤ cached →
       0 ≤ (initPenetrationConstraint warm iB1 iB2 i1 i2 minv1 minv2 e fIdx
              p1 p2 x1 x2 n depth resting cached v1 w1 v2 w2
              prev).penetrationImpulse ∧
       0 ≤ (initPenetrationConstraint warm iB1 iB2 i1 i2 minv1 minv2 e fIdx
              p1 p2 x1 x2 n depth resting cached v1 w1 v2 w2
              prev).penetrationSplitImpulse) ∧
    (∀ split dt pcs s fcs, (∀ pc ∈ pcs, 0 ≤ pc.penetrationSplitImpulse) →
       ∀ pc' ∈ (solvePenetrationSweep split dt pcs s fcs).1,
         0 ≤ pc'.penetrationImpulse ∧ 0 ≤ pc'.penetrationSplitImpulse) := by
  constructor
  · intro warm iB1 iB2 i1 i2 minv1 minv2 e fIdx p1 p2 x1 x2 n depth resting
      cached v1 w1 v2 w2 prev hc
    constructor
    · simp only [initPenetrationConstraint]
      cases warm <;> simp [hc]
    · simp [initPenetrationConstraint]
  · exact fun split dt pcs s fcs h =>
      solvePenetrationSweep_impulses split dt pcs s fcs h

/-- C5 witness: both parts applied at concrete inputs (warm start with
cached impulse 3, and a one-constraint sweep starting from `pcC2`). -/
theorem C5_lambda_nonneg_witness :
    ((0 : ℚ) ≤ 3 ∧
      (0 ≤ (initPenetrationConstraint true 0 1 0 0 0 0 0 0 0 0 0 0 0 0 false
              3 0 0 0 0 7).penetrationImpulse ∧
       0 ≤ (initPenetrationConstraint true 0 1 0 0 0 0 0 0 0 0 0 0 0 0 false
              3 0 0 0 0 7).penetrationSplitImpulse)) ∧
    ((∀ pc ∈ [pcC2], 0 ≤ pc.penetrationSplitImpulse) ∧
      ∀ pc' ∈ (solvePenetrationSweep true 1 [pcC2] stateZero
          (fun _ => fcZero)).1,
        0 ≤ pc'.penetrationImpulse ∧ 0 ≤ pc'.penetrationSplitImpulse) := by
  constructor
  · exact ⟨by norm_num,
      C5_lambda_nonneg.1 true 0 1 0 0 0 0 0 0 0 0 0 0 0 0 false 3 0 0 0 0 7
        (by norm_num)⟩
  · refine ⟨?_, C5_lambda_nonneg.2 true 1 [pcC2] stateZero (fun _ => fcZero) ?_⟩
    · intro pc hpc
      simp only [List.mem_singleton] at hpc
      subst hpc
      norm_num [pcC2, pcZero]
    · intro pc hpc
      simp only [List.mem_singleton] at hpc
      subst hpc
      norm_num [pcC2, pcZero]

/-! ### C6: the velocity-space increment formula -/

/-- The claim's formula for the velocity-space Lagrange-multiplier
increment (spec section 4.3, steps 3-4), written from the spec's words:
with split impulse enabled `-(Jv + restitutionBias) * effMassInv` with no
positional bias; otherwise `-(Jv + b_pen + restitutionBias) * effMassInv`
with `b_pen = -(0.2/dt) * max(0, depth - SLOP)` when `depth > SLOP`, else
0.  To be compared with the code-side `penDeltaLambdaUnclamped`. -/
def specPenDeltaLambda (split : Bool) (dt depth restitutionBias effMassInv
    jv : ℚ) : ℚ :=
  if split then -(jv + restitutionBias) * effMassInv
  else
    -(jv +
        (if depth > SLOP then -(2/10 / dt) * max 0 (depth - SLOP) else 0) +
        restitutionBias) * effMassInv

/-- C6: the code's velocity-space increment (lines 786-800, as used by the
penetration sweep) coincides with the spec's formula: split impulse on
drops the positional Baumgarte bias entirely; split impulse off uses
`b_pen` with `beta = BETA = 0.2`. -/
theorem C6_delta_lambda_formula (split : Bool) (dt : ℚ)
    (pc : PenetrationConstraint) (jv : ℚ) :
    penDeltaLambdaUnclamped split dt pc jv =
      specPenDeltaLambda split dt pc.penetrationDepth pc.restitutionBias
        pc.inversePenetrationMass jv := by
  cases split with
  | true => simp [penDeltaLambdaUnclamped, specPenDeltaLambda]
  | false =>
    simp only [penDeltaLambdaUnclamped, specPenDeltaLambda, biasPen, BETA,
      Bool.false_eq_true, if_false]
    ring

/-! ### C7: the split sub-step touches only the split buffers -/

/-- C7: frame conditions of `solvePenetrationConstraints`.  (i) The
split-impulse sub-step (lines 819-845) leaves the main velocity buffers
untouched; (ii) its outputs (updated constraint and split buffers) depend
only on the split buffers of the incoming state, i.e. it reads nothing
from the main buffers; (iii) the main velocity-space projection
(lines 776-816) never writes the split buffers. -/
theorem C7_split_buffer_isolation :
    (∀ dt pc s, (penSplitStep dt pc s).2.linV = s.linV ∧
        (penSplitStep dt pc s).2.angV = s.angV) ∧
    (∀ dt pc s t, s.splitLinV = t.splitLinV → s.splitAngV = t.splitAngV →
        (penSplitStep dt pc s).1 = (penSplitStep dt pc t).1 ∧
        (penSplitStep dt pc s).2.splitLinV =
          (penSplitStep dt pc t).2.splitLinV ∧
        (penSplitStep dt pc s).2.splitAngV =
          (penSplitStep dt pc t).2.splitAngV) ∧
    (∀ split dt pc s fcs,
        (penMainStep split dt pc s fcs).2.1.splitLinV = s.splitLinV ∧
        (penMainStep split dt pc s fcs).2.1.splitAngV = s.splitAngV) := by
  refine ⟨fun dt pc s => ⟨rfl, rfl⟩, ?_, fun split dt pc s fcs => ⟨rfl, rfl⟩⟩
  intro dt pc s t h1 h2
  simp only [penSplitStep]
  rw [h1, h2]
  exact ⟨rfl, rfl, rfl⟩

/-- C7 witness: the isolation statements applied at a concrete constraint
and at two states that agree on the split buffers but have different main
buffers. -/
theorem C7_split_buffer_isolation_witness :
    ((penSplitStep 1 pcC2 stateZero).2.linV = stateZero.linV ∧
      (penSplitStep 1 pcC2 stateZero).2.angV = stateZero.angV) ∧
    (stateZero.splitLinV =
        ({ stateZero with linV := fun _ => ⟨1, 0, 0⟩ } :
          SolverState).splitLinV ∧
      (penSplitStep 1 pcC2 stateZero).1 =
        (penSplitStep 1 pcC2
          { stateZero with linV := fun _ => ⟨1, 0, 0⟩ }).1) ∧
    ((penMainStep true 1 pcC2 stateZero (fun _ => fcZero)).2.1.splitLinV =
        stateZero.splitLinV) := by
  refine ⟨C7_split_buffer_isolation.1 1 pcC2 stateZero, ⟨rfl, ?_⟩, ?_⟩
  · exact (C7_split_buffer_isolation.2.1 1 pcC2 stateZero
      { stateZero with linV := fun _ => ⟨1, 0, 0⟩ } rfl rfl).1
  · exact (C7_split_buffer_isolation.2.2 true 1 pcC2 stateZero
      (fun _ => fcZero)).1

/-! ### C4: Coulomb-cone bound on the accumulated friction impulses -/

theorem abs_clamp_le {L x : ℚ} (hL : 0 ≤ L) : |max (-L) (min x L)| ≤ L := by
  rw [abs_le]
  exact ⟨le_max_left _ _, max_le (by linarith) (min_le_right _ _)⟩

theorem solveFrictionOne_clamps (fc : FrictionConstraint) (s : SolverState) :
    ((solveFrictionOne fc s).1.frictionCoefficient = fc.frictionCoefficient ∧
      (solveFrictionOne fc s).1.totalPenetrationImpulse =
        fc.totalPenetrationImpulse) ∧
    (∃ u, (solveFrictionOne fc s).1.friction1Impulse =
        max (-(fc.frictionCoefficient * fc.totalPenetrationImpulse))
          (min u (fc.frictionCoefficient * fc.totalPenetrationImpulse))) ∧
    (∃ u, (solveFrictionOne fc s).1.friction2Impulse =
        max (-(fc.frictionCoefficient * fc.totalPenetrationImpulse))
          (min u (fc.frictionCoefficient * fc.totalPenetrationImpulse))) ∧
    (∃ u, (solveFrictionOne fc s).1.frictionTwistImpulse =
        max (-(fc.frictionCoefficient * fc.totalPenetrationImpulse))
          (min u (fc.frictionCoefficient * fc.totalPenetrationImpulse))) := by
  simp only [solveFrictionOne]
  split
  · exact ⟨⟨rfl, rfl⟩, ⟨_, rfl⟩, ⟨_, rfl⟩, ⟨_, rfl⟩⟩
  · exact ⟨⟨rfl, rfl⟩, ⟨_, rfl⟩, ⟨_, rfl⟩, ⟨_, rfl⟩⟩

theorem solveFrictionOne_cone (fc : FrictionConstraint) (s : SolverState)
    (hmu : 0 ≤ fc.frictionCoefficient)
    (htot : 0 ≤ fc.totalPenetrationImpulse) :
    |(solveFrictionOne fc s).1.friction1Impulse| ≤
      (solveFrictionOne fc s).1.frictionCoefficient *
        (solveFrictionOne fc s).1.totalPenetrationImpulse ∧
    |(solveFrictionOne fc s).1.friction2Impulse| ≤
      (solveFrictionOne fc s).1.frictionCoefficient *
        (solveFrictionOne fc s).1.totalPenetrationImpulse ∧
    |(solveFrictionOne fc s).1.frictionTwistImpulse| ≤
      (solveFrictionOne fc s).1.frictionCoefficient *
        (solveFrictionOne fc s).1.totalPenetrationImpulse := by
  obtain ⟨⟨hmu', htot'⟩, ⟨u1, h1⟩, ⟨u2, h2⟩, ⟨u3, h3⟩⟩ :=
    solveFrictionOne_clamps fc s
  rw [hmu', htot', h1, h2, h3]
  have hL : 0 ≤ fc.frictionCoefficient * fc.totalPenetrationImpulse :=
    mul_nonneg hmu htot
  exact ⟨abs_clamp_le hL, abs_clamp_le hL, abs_clamp_le hL⟩

theorem solveFrictionSweep_cone :
    ∀ (fcs : List FrictionConstraint) (s : SolverState),
      (∀ fc ∈ fcs, 0 ≤ fc.frictionCoefficient ∧
        0 ≤ fc.totalPenetrationImpulse) →
      ∀ fc' ∈ (solveFrictionSweep fcs s).1,
        |fc'.friction1Impulse| ≤
          fc'.frictionCoefficient * fc'.totalPenetrationImpulse ∧
        |fc'.friction2Impulse| ≤
          fc'.frictionCoefficient * fc'.totalPenetrationImpulse ∧
        |fc'.frictionTwistImpulse| ≤
          fc'.frictionCoefficient * fc'.totalPenetrationImpulse
  | [], _, _ => by simp [solveFrictionSweep]
  | fc :: fcs, s, h => by
    intro fc' hfc'
    simp only [solveFrictionSweep, List.mem_cons] at hfc'
    rcases hfc' with rfl | hfc'
    · have hh := h fc (List.mem_cons_self fc fcs)
      exact solveFrictionOne_cone fc s hh.1 hh.2
    · exact solveFrictionSweep_cone fcs _
        (fun x hx => h x (List.mem_cons_of_mem _ hx)) fc' hfc'

theorem penMainStep_total_nonneg (split : Bool) (dt : ℚ)
    (pc : PenetrationConstraint) (s : SolverState)
    (fcs : ℕ → FrictionConstraint) (j : ℕ)
    (h : 0 ≤ (fcs j).totalPenetrationImpulse) :
    0 ≤ ((penMainStep split dt pc s fcs).2.2 j).totalPenetrationImpulse := by
  simp only [penMainStep]
  by_cases hj : j = pc.indexFrictionConstraint
  · subst hj
    simp only [if_pos rfl]
    exact add_nonneg h (le_max_right _ _)
  · simp only [if_neg hj]
    exact h

theorem solvePenetrationOne_fcs (split : Bool) (dt : ℚ)
    (pc : PenetrationConstraint) (s : SolverState)
    (fcs : ℕ → FrictionConstraint) :
    (solvePenetrationOne split dt pc s fcs).2.2 =
      (penMainStep split dt pc s fcs).2.2 := by
  cases split <;> simp [solvePenetrationOne]

theorem solvePenetrationSweep_total_nonneg (split : Bool) (dt : ℚ) :
    ∀ (pcs : List PenetrationConstraint) (s : SolverState)
      (fcs : ℕ → FrictionConstraint),
      (∀ j, 0 ≤ (fcs j).totalPenetrationImpulse) →
      ∀ j, 0 ≤ ((solvePenetrationSweep split dt pcs s
        fcs).2.2 j).totalPenetrationImpulse
  | [], _, _, h => by simpa [solvePenetrationSweep] using h
  | pc :: pcs, s, fcs, h => by
    intro j
    simp only [solvePenetrationSweep]
    refine solvePenetrationSweep_total_nonneg split dt pcs _ _ ?_ j
    intro j'
    rw [solvePenetrationOne_fcs]
    exact penMainStep_total_nonneg split dt pc s fcs j' (h j')

/-- C4: after any `solveFrictionConstraints` sweep, every friction
constraint satisfies the Coulomb-cone bounds
`|J1|, |J2|, |Jtwist| <= mu * totalPenetrationImpulse` (the clamps at lines
876-878, 906-908 and 934-936 project into `[-L, L]`, and the sweep does not
modify `mu` or `totalPenetrationImpulse`), provided the friction
coefficients are non-negative and the running totals entering the sweep are
non-negative.  The second conjunct discharges the claim's parenthetical:
after `resetTotalPenetrationImpulse` followed by any penetration sweep,
every `totalPenetrationImpulse` is indeed non-negative (it accumulates
projected `lambda >= 0` values, line 807). -/
theorem C4_friction_cone :
    (∀ (fcs : List FrictionConstraint) (s : SolverState),
      (∀ fc ∈ fcs, 0 ≤ fc.frictionCoefficient ∧
        0 ≤ fc.totalPenetrationImpulse) →
      ∀ fc' ∈ (solveFrictionSweep fcs s).1,
        |fc'.friction1Impulse| ≤
          fc'.frictionCoefficient * fc'.totalPenetrationImpulse ∧
        |fc'.friction2Impulse| ≤
          fc'.frictionCoefficient * fc'.totalPenetrationImpulse ∧
        |fc'.frictionTwistImpulse| ≤
          fc'.frictionCoefficient * fc'.totalPenetrationImpulse) ∧
    (∀ split dt pcs s fcs j,
      0 ≤ ((solvePenetrationSweep split dt pcs s
        (resetTotal fcs)).2.2 j).totalPenetrationImpulse) := by
  refine ⟨solveFrictionSweep_cone, ?_⟩
  intro split dt pcs s fcs j
  refine solvePenetrationSweep_total_nonneg split dt pcs s (resetTotal fcs)
    (fun j' => ?_) j
  simp [resetTotal]

/-- Concrete friction constraint for the C4 witness: `mu = 1/2`,
`totalPenetrationImpulse = 2`, oversized cached `J1 = 9`. -/
def fcC4 : FrictionConstraint :=
  { fcZero with
    frictionCoefficient := 1/2
    totalPenetrationImpulse := 2
    friction1Impulse := 9 }

/-- C4 witness: one friction constraint with `mu = 1/2`,
`totalPenetrationImpulse = 2` and a large cached `J1 = 9`, swept once from
the zero state; and the total-non-negativity part at a concrete sweep. -/
theorem C4_friction_cone_witness :
    ((∀ fc ∈ [fcC4],
        0 ≤ fc.frictionCoefficient ∧ 0 ≤ fc.totalPenetrationImpulse) ∧
      (∀ fc' ∈ (solveFrictionSweep [fcC4] stateZero).1,
        |fc'.friction1Impulse| ≤
          fc'.frictionCoefficient * fc'.totalPenetrationImpulse ∧
        |fc'.friction2Impulse| ≤
          fc'.frictionCoefficient * fc'.totalPenetrationImpulse ∧
        |fc'.frictionTwistImpulse| ≤
          fc'.frictionCoefficient * fc'.totalPenetrationImpulse)) ∧
    0 ≤ ((solvePenetrationSweep true 1 [pcC2] stateZero
      (resetTotal fun _ => fcZero)).2.2 0).totalPenetrationImpulse := by
  refine ⟨⟨?_, C4_friction_cone.1 _ _ ?_⟩,
    C4_friction_cone.2 true 1 [pcC2] stateZero (fun _ => fcZero) 0⟩ <;>
  · intro fc hfc
    simp only [List.mem_singleton] at hfc
    subst hfc
    norm_num [fcC4, fcZero]

/-! ### C8: warm-start reprojection identity -/

/-- C8: in `warmStart`, for a friction constraint with a resting contact
whose tangent basis did not change across frames (and is orthonormal),
the reprojection of the cached impulses (lines 513-516) is the identity:
`(J_old_vec . t1, J_old_vec . t2) = (J1, J2)`. -/
theorem C8_reprojection_identity (fc : FrictionConstraint) (s : SolverState)
    (hrest : fc.hasAtLeastOneRestingContactPoint = true)
    (h1 : fc.frictionVector1 = fc.oldFrictionVector1)
    (h2 : fc.frictionVector2 = fc.oldFrictionVector2)
    (h11 : fc.oldFrictionVector1.dot fc.oldFrictionVector1 = 1)
    (h22 : fc.oldFrictionVector2.dot fc.oldFrictionVector2 = 1)
    (h12 : fc.oldFrictionVector1.dot fc.oldFrictionVector2 = 0) :
    (warmStartFrictionOne fc s).1.friction1Impulse = fc.friction1Impulse ∧
    (warmStartFrictionOne fc s).1.friction2Impulse = fc.friction2Impulse := by
  simp only [warmStartFrictionOne, hrest, if_true]
  rw [h1, h2]
  constructor
  · rw [Vector3.add_dot, Vector3.smul_dot, Vector3.smul_dot, h11,
      Vector3.dot_comm fc.oldFrictionVector2 fc.oldFrictionVector1, h12]
    ring
  · rw [Vector3.add_dot, Vector3.smul_dot, Vector3.smul_dot, h22, h12]
    ring

/-- Concrete friction constraint for the C8 witness: unchanged orthonormal
basis `t1 = (1,0,0)`, `t2 = (0,1,0)`, cached `J1 = 3`, `J2 = 5`. -/
def fcC8 : FrictionConstraint :=
  { fcZero with
    hasAtLeastOneRestingContactPoint := true
    frictionVector1 := ⟨1, 0, 0⟩
    oldFrictionVector1 := ⟨1, 0, 0⟩
    frictionVector2 := ⟨0, 1, 0⟩
    oldFrictionVector2 := ⟨0, 1, 0⟩
    friction1Impulse := 3
    friction2Impulse := 5 }

/-- C8 witness: the reprojection identity at `fcC8`. -/
theorem C8_reprojection_identity_witness :
    (fcC8.hasAtLeastOneRestingContactPoint = true ∧
      fcC8.frictionVector1 = fcC8.oldFrictionVector1 ∧
      fcC8.frictionVector2 = fcC8.oldFrictionVector2 ∧
      fcC8.oldFrictionVector1.dot fcC8.oldFrictionVector1 = 1 ∧
      fcC8.oldFrictionVector2.dot fcC8.oldFrictionVector2 = 1 ∧
      fcC8.oldFrictionVector1.dot fcC8.oldFrictionVector2 = 0) ∧
    ((warmStartFrictionOne fcC8 stateZero).1.friction1Impulse =
        fcC8.friction1Impulse ∧
      (warmStartFrictionOne fcC8 stateZero).1.friction2Impulse =
        fcC8.friction2Impulse) := by
  have hs : fcC8.hasAtLeastOneRestingContactPoint = true ∧
      fcC8.frictionVector1 = fcC8.oldFrictionVector1 ∧
      fcC8.frictionVector2 = fcC8.oldFrictionVector2 ∧
      fcC8.oldFrictionVector1.dot fcC8.oldFrictionVector1 = 1 ∧
      fcC8.oldFrictionVector2.dot fcC8.oldFrictionVector2 = 1 ∧
      fcC8.oldFrictionVector1.dot fcC8.oldFrictionVector2 = 0 := by
    refine ⟨rfl, rfl, rfl, ?_, ?_, ?_⟩ <;> norm_num [fcC8, fcZero, Vector3.dot]
  exact ⟨hs, C8_reprojection_identity fcC8 stateZero hs.1 hs.2.1 hs.2.2.1
    hs.2.2.2.1 hs.2.2.2.2.1 hs.2.2.2.2.2⟩

/-! ### C9: momentum conservation of a single constraint application -/

theorem momentum_pair {mA mB minv1 minv2 : ℚ} (hA : mA * minv1 = 1)
    (hB : mB * minv2 = 1) (p : Vector3) :
    mA • (minv1 • (-p)) + mB • (minv2 • p) = 0 := by
  rw [Vector3.smul_smul', Vector3.smul_smul', hA, hB, Vector3.one_smul',
    Vector3.one_smul', Vector3.add_comm']
  exact Vector3.add_neg_cancel' p

theorem momentum_pair_zero {mA mB minv1 minv2 : ℚ} :
    mA • (minv1 • (0 : Vector3)) + mB • (minv2 • (0 : Vector3)) = 0 := by
  ext <;> simp

theorem sum3_sub_cancel (v a b c : Vector3) : v + a + b + c - v = a + b + c := by
  ext <;> simp <;> ring

theorem add_add_add_comm3 (a b c d e f : Vector3) :
    a + b + c + (d + e + f) = (a + d) + (b + e) + (c + f) := by
  ext <;> simp <;> ring

theorem penMainStep_momentum (split : Bool) (dt : ℚ)
    (pc : PenetrationConstraint) (s : SolverState)
    (fcs : ℕ → FrictionConstraint) (mA mB : ℚ)
    (hne : pc.indexBody1 ≠ pc.indexBody2)
    (hA : mA * pc.massInverseBody1 = 1)
    (hB : mB * pc.massInverseBody2 = 1) :
    mA • ((penMainStep split dt pc s fcs).2.1.linV pc.indexBody1 -
        s.linV pc.indexBody1) +
    mB • ((penMainStep split dt pc s fcs).2.1.linV pc.indexBody2 -
        s.linV pc.indexBody2) = 0 := by
  have hne' : pc.indexBody2 ≠ pc.indexBody1 := hne.symm
  simp [penMainStep, updV, hne, hne']
  rw [Vector3.add_sub_cancel_left', Vector3.add_sub_cancel_left']
  exact momentum_pair hA hB _

theorem solveFrictionOne_momentum (fc : FrictionConstraint) (s : SolverState)
    (mA mB : ℚ) (hne : fc.indexBody1 ≠ fc.indexBody2)
    (hA : mA * fc.massInverseBody1 = 1) (hB : mB * fc.massInverseBody2 = 1) :
    mA • ((solveFrictionOne fc s).2.linV fc.indexBody1 -
        s.linV fc.indexBody1) +
    mB • ((solveFrictionOne fc s).2.linV fc.indexBody2 -
        s.linV fc.indexBody2) = 0 := by
  have hne' : fc.indexBody2 ≠ fc.indexBody1 := hne.symm
  by_cases hr : fc.rollingResistanceFactor > 0 <;>
  · simp [solveFrictionOne, hr, updV, hne, hne']
    rw [sum3_sub_cancel, sum3_sub_cancel]
    simp only [Vector3.smul_add']
    rw [add_add_add_comm3, momentum_pair hA hB, momentum_pair hA hB,
      momentum_pair_zero]
    simp

/-- C9: a single constraint application conserves linear momentum.  For
both the velocity-space penetration projection (lines 809-816) and a full
friction-constraint application (lines 881-951, linear parts), when the two
bodies are distinct and dynamic (`mA * Minv_A = 1`, `mB * Minv_B = 1`), the
mass-weighted sum of the linear-velocity changes is the zero vector: body A
receives `-P` and body B `+P` of the same impulse. -/
theorem C9_momentum_conservation :
    (∀ split dt pc s fcs (mA mB : ℚ), pc.indexBody1 ≠ pc.indexBody2 →
      mA * pc.massInverseBody1 = 1 → mB * pc.massInverseBody2 = 1 →
      mA • ((penMainStep split dt pc s fcs).2.1.linV pc.indexBody1 -
          s.linV pc.indexBody1) +
      mB • ((penMainStep split dt pc s fcs).2.1.linV pc.indexBody2 -
          s.linV pc.indexBody2) = 0) ∧
    (∀ fc s (mA mB : ℚ), fc.indexBody1 ≠ fc.indexBody2 →
      mA * fc.massInverseBody1 = 1 → mB * fc.massInverseBody2 = 1 →
      mA • ((solveFrictionOne fc s).2.linV fc.indexBody1 -
          s.linV fc.indexBody1) +
      mB • ((solveFrictionOne fc s).2.linV fc.indexBody2 -
          s.linV fc.indexBody2) = 0) :=
  ⟨fun split dt pc s fcs mA mB hne hA hB =>
      penMainStep_momentum split dt pc s fcs mA mB hne hA hB,
   fun fc s mA mB hne hA hB =>
      solveFrictionOne_momentum fc s mA mB hne hA hB⟩

/-- Concrete penetration constraint for the C9 witness: two unit-mass
dynamic bodies. -/
def pcC9 : PenetrationConstraint :=
  { pcC2 with massInverseBody1 := 1, massInverseBody2 := 1 }

/-- Concrete friction constraint for the C9 witness. -/
def fcC9 : FrictionConstraint :=
  { fcC8 with massInverseBody1 := 1, massInverseBody2 := 1 }

/-- C9 witness: momentum conservation at concrete inputs with unit
masses. -/
theorem C9_momentum_conservation_witness :
    (pcC9.indexBody1 ≠ pcC9.indexBody2 ∧
      (1 : ℚ) * pcC9.massInverseBody1 = 1 ∧
      (1 : ℚ) * pcC9.massInverseBody2 = 1 ∧
      (1 : ℚ) • ((penMainStep true 1 pcC9 stateZero
            (fun _ => fcZero)).2.1.linV pcC9.indexBody1 -
          stateZero.linV pcC9.indexBody1) +
        (1 : ℚ) • ((penMainStep true 1 pcC9 stateZero
            (fun _ => fcZero)).2.1.linV pcC9.indexBody2 -
          stateZero.linV pcC9.indexBody2) = 0) ∧
    (fcC9.indexBody1 ≠ fcC9.indexBody2 ∧
      (1 : ℚ) • ((solveFrictionOne fcC9 stateZero).2.linV fcC9.indexBody1 -
          stateZero.linV fcC9.indexBody1) +
        (1 : ℚ) • ((solveFrictionOne fcC9 stateZero).2.linV fcC9.indexBody2 -
          stateZero.linV fcC9.indexBody2) = 0) := by
  have hpne : pcC9.indexBody1 ≠ pcC9.indexBody2 := by
    norm_num [pcC9, pcC2, pcZero]
  have hfne : fcC9.indexBody1 ≠ fcC9.indexBody2 := by
    norm_num [fcC9, fcC8, fcZero]
  have hpA : (1 : ℚ) * pcC9.massInverseBody1 = 1 := by
    norm_num [pcC9, pcC2, pcZero]
  have hpB : (1 : ℚ) * pcC9.massInverseBody2 = 1 := by
    norm_num [pcC9, pcC2, pcZero]
  have hfA : (1 : ℚ) * fcC9.massInverseBody1 = 1 := by
    norm_num [fcC9, fcC8, fcZero]
  have hfB : (1 : ℚ) * fcC9.massInverseBody2 = 1 := by
    norm_num [fcC9, fcC8, fcZero]
  exact ⟨⟨hpne, hpA, hpB,
      C9_momentum_conservation.1 true 1 pcC9 stateZero (fun _ => fcZero)
        1 1 hpne hpA hpB⟩,
    ⟨hfne, C9_momentum_conservation.2 fcC9 stateZero 1 1 hfne hfA hfB⟩⟩

end ContactSolver
